import Mathlib

/-!
Verification of the teamtailor-csv-export core (`src/teamtailor.ts`):
a shallow embedding of the pagination/retry fetch loop and the
relationship-flattening + CSV-encoding pipeline, with theorems settling
the specification's claims about them.

Conventions of the embedding:
* JSON:API optional fields become `Option`; the JS `x || ""` default on a
  possibly-missing string attribute becomes `Option.getD "" `.
* The `Map` built from a page's `included` collection becomes a function
  `String → Option JobApplication`, built by a left fold so that a later
  entry with the same id overwrites an earlier one, exactly as `Map.set`.
* The HTTP layer is abstracted as a function from attempt index to the
  response that attempt receives (`Nat → HttpResponse`), and from page
  number to the page it returns, so the retry loop and the pagination
  loop become pure functions of those oracles.
* The possibly-nonterminating `while (true)` pagination loop is embedded
  with explicit fuel, returning `none` on fuel exhaustion.
-/

namespace TT

/-- One relationship reference: in the source,
`relationships["job-applications"].data` is either an array of
`(id, type)` references or a single such object. -/
structure Ref where
  id : String
  type : String
deriving DecidableEq, Repr

/-- The `data` field of a JSON:API relationship: an array of references
or a single reference object (`Relationship` interface, teamtailor.ts). -/
inductive RelData where
  | arr (refs : List Ref)
  | single (r : Ref)
deriving DecidableEq, Repr

/-- The `Relationship` interface: `data` is an array of references or a
single reference. -/
structure Relationship where
  data : RelData
deriving DecidableEq, Repr

/-- Candidate attributes; `first-name`, `last-name` and `email` are
declared `string` but accessed defensively (`attrs["first-name"] || ""`),
so each is modelled as possibly missing. -/
structure CandidateAttributes where
  firstName : Option String
  lastName : Option String
  email : Option String
deriving DecidableEq, Repr

/-- The optional `relationships` object of a candidate, itself holding an
optional `job-applications` relationship. -/
structure CandidateRels where
  jobApplications : Option Relationship
deriving DecidableEq, Repr

/-- The `Candidate` interface. -/
structure Candidate where
  id : String
  type : String
  attributes : CandidateAttributes
  relationships : Option CandidateRels
deriving DecidableEq, Repr

/-- Job application attributes; `created-at` accessed via
`jobApp?.attributes["created-at"] || ""`, so modelled as possibly
missing. -/
structure JobApplicationAttributes where
  createdAt : Option String
deriving DecidableEq, Repr

/-- The `JobApplication` interface. -/
structure JobApplication where
  id : String
  type : String
  attributes : JobApplicationAttributes
deriving DecidableEq, Repr

/-- The `links` object of a page response; `next` is the continuation
cursor. -/
structure Links where
  next : Option String
deriving DecidableEq, Repr

/-- The `meta` object of a page response; used only to format a progress
label in the driver, never for termination. -/
structure Meta where
  record_count : Option Nat
  page_count : Option Nat
deriving DecidableEq, Repr

/-- The `ApiResponse` interface: one parsed page. -/
structure ApiResponse where
  data : List Candidate
  included : Option (List JobApplication)
  links : Option Links
  meta : Option Meta
deriving DecidableEq, Repr

/-- The `CsvRow` interface: the six-field flat row. -/
structure CsvRow where
  candidate_id : String
  first_name : String
  last_name : String
  email : String
  job_application_id : String
  job_application_created_at : String
deriving DecidableEq, Repr

/-! ## The related-entity index (`jobAppsMap`) -/

/-- The lookup map type standing for `Map<string, JobApplication>`. -/
def JobAppsMap : Type := String → Option JobApplication

/-- Insertion as `Map.set`: later insertions overwrite earlier ones. -/
def mapSet (m : JobAppsMap) (k : String) (v : JobApplication) : JobAppsMap :=
  fun x => if x = k then some v else m x

/-- The per-page index build in `fetchAllCandidates`: iterate over the
page's `included` collection and register every resource whose `type`
is `"job-applications"`. -/
def buildJobAppsMap (included : List JobApplication) : JobAppsMap :=
  included.foldl
    (fun m resource =>
      if resource.type = "job-applications" then mapSet m resource.id resource else m)
    (fun _ => none)

/-! ## The relationship flattener (`parseCandidateToRows`) -/

/-- The function `parseCandidateToRows` from teamtailor.ts: one candidate plus the
current page's index become one row per job-application reference when
the reference is a non-empty array, and a single placeholder row
otherwise. -/
def parseCandidateToRows (candidate : Candidate) (jobAppsMap : JobAppsMap) :
    List CsvRow :=
  let attrs := candidate.attributes
  let candidateId := candidate.id
  let firstName := attrs.firstName.getD ""
  let lastName := attrs.lastName.getD ""
  let email := attrs.email.getD ""
  let jobAppRefs := (candidate.relationships.bind
    (fun r => r.jobApplications)).map (fun rel => rel.data)
  match jobAppRefs with
  | some (RelData.arr refs) =>
    if refs.length > 0 then
      refs.map (fun ref =>
        { candidate_id := candidateId
          first_name := firstName
          last_name := lastName
          email := email
          job_application_id := ref.id
          job_application_created_at :=
            ((jobAppsMap ref.id).bind (fun j => j.attributes.createdAt)).getD "" })
    else
      [{ candidate_id := candidateId, first_name := firstName,
         last_name := lastName, email := email,
         job_application_id := "", job_application_created_at := "" }]
  | _ =>
    [{ candidate_id := candidateId, first_name := firstName,
       last_name := lastName, email := email,
       job_application_id := "", job_application_created_at := "" }]

/-- The relationship reference actually read by the flattener:
`candidate.relationships?.["job-applications"]?.data`. -/
def getRefs (candidate : Candidate) : Option RelData :=
  (candidate.relationships.bind (fun r => r.jobApplications)).map
    (fun rel => rel.data)

/-- The row the flattener builds for one reference of one candidate. -/
def refRow (candidate : Candidate) (jobAppsMap : JobAppsMap) (ref : Ref) :
    CsvRow :=
  { candidate_id := candidate.id
    first_name := candidate.attributes.firstName.getD ""
    last_name := candidate.attributes.lastName.getD ""
    email := candidate.attributes.email.getD ""
    job_application_id := ref.id
    job_application_created_at :=
      ((jobAppsMap ref.id).bind (fun j => j.attributes.createdAt)).getD "" }

/-- The placeholder row the flattener emits when there is no usable
reference array. -/
def placeholderRow (candidate : Candidate) : CsvRow :=
  { candidate_id := candidate.id
    first_name := candidate.attributes.firstName.getD ""
    last_name := candidate.attributes.lastName.getD ""
    email := candidate.attributes.email.getD ""
    job_application_id := ""
    job_application_created_at := "" }

/-! ## The backoff-retrying page fetcher (`fetchCandidatesPage`) -/

/-- The `MAX_RETRIES` constant from teamtailor.ts. -/
def MAX_RETRIES : Nat := 3

/-- The failure taxonomy thrown by `fetchCandidatesPage`. -/
inductive FetchError where
  | rateLimitExceeded
  | invalidCredential
  | accessDenied
  | upstreamError (status : Nat)
deriving DecidableEq, Repr

/-- One HTTP response as the fetcher sees it: a status code and, when
successful, the parsed page body. -/
structure HttpResponse where
  status : Nat
  body : ApiResponse
deriving DecidableEq, Repr

/-- Success test `response.ok` of the fetch API: status in the range
200–299. -/
def statusOk (status : Nat) : Bool :=
  200 ≤ status && status ≤ 299

instance : DecidableEq (Except FetchError ApiResponse) := fun a b =>
  match a, b with
  | Except.ok x, Except.ok y =>
    if h : x = y then isTrue (by rw [h]) else isFalse (by simp [h])
  | Except.error x, Except.error y =>
    if h : x = y then isTrue (by rw [h]) else isFalse (by simp [h])
  | Except.ok _, Except.error _ => isFalse (by simp)
  | Except.error _, Except.ok _ => isFalse (by simp)

/-- The observable result of one `fetchCandidatesPage` call: its outcome,
how many HTTP requests it issued, and the backoff delays (in ms) it
waited, in order. -/
structure FetchResult where
  outcome : Except FetchError ApiResponse
  requests : Nat
  delays : List Nat
deriving DecidableEq, Repr

/-- The body of the retry loop of `fetchCandidatesPage`, recursing on the
number of loop iterations still allowed (`attempt ≤ MAX_RETRIES`).
Before every attempt after the first, a delay of `2^(attempt-1) * 1000`
ms is recorded.  A 429 response records the rate-limit error and
continues; any other non-ok status throws its classification; an ok
status returns the parsed body.  Falling off the loop throws the
recorded rate-limit error. -/
def fetchGo (resps : Nat → HttpResponse) :
    Nat → Nat → List Nat → Nat → FetchResult
  | _attempt, 0, delays, reqs =>
    { outcome := Except.error FetchError.rateLimitExceeded
      requests := reqs, delays := delays }
  | attempt, fuel + 1, delays, reqs =>
    let delays' :=
      if attempt > 0 then delays ++ [2 ^ (attempt - 1) * 1000] else delays
    let response := resps attempt
    if response.status = 429 then
      fetchGo resps (attempt + 1) fuel delays' (reqs + 1)
    else if ¬ statusOk response.status then
      { outcome := Except.error
          (if response.status = 401 then FetchError.invalidCredential
           else if response.status = 403 then FetchError.accessDenied
           else FetchError.upstreamError response.status)
        requests := reqs + 1, delays := delays' }
    else
      { outcome := Except.ok response.body
        requests := reqs + 1, delays := delays' }

/-- The function `fetchCandidatesPage`, abstracted over the responses the network
returns for successive attempts: the loop runs attempts
`0 … MAX_RETRIES`. -/
def fetchCandidatesPage (resps : Nat → HttpResponse) : FetchResult :=
  fetchGo resps 0 (MAX_RETRIES + 1) [] 0

/-! ## The pagination driver (`fetchAllCandidates`) -/

/-- The rows contributed by one page in `fetchAllCandidates`: build the
job-applications index from the page's `included` collection, then
flatten every candidate of the page against it, in order. -/
def processPage (resp : ApiResponse) : List CsvRow :=
  let jobAppsMap := buildJobAppsMap (resp.included.getD [])
  resp.data.flatMap (fun candidate => parseCandidateToRows candidate jobAppsMap)

/-- The loop condition of `fetchAllCandidates`:
`data.links && data.links.next` — a present, non-empty (JS-truthy)
continuation cursor. -/
def hasNext (resp : ApiResponse) : Bool :=
  match resp.links with
  | none => false
  | some l =>
    match l.next with
    | none => false
    | some s => s ≠ ""

/-- The `while (true)` loop of `fetchAllCandidates`, with explicit fuel:
fetch the current page, append its rows, and continue with the next
page number exactly when the response carries a continuation cursor.
Returns the accumulated rows and the number of page requests issued, or
`none` if the fuel runs out before the loop stops.  (`meta` is read
only to format a progress label and does not affect the result.) -/
def fetchAllGo (pages : Nat → ApiResponse) :
    Nat → Nat → List CsvRow → Nat → Option (List CsvRow × Nat)
  | _currentPage, 0, _acc, _reqs => none
  | currentPage, fuel + 1, acc, reqs =>
    let resp := pages currentPage
    let acc' := acc ++ processPage resp
    if hasNext resp then
      fetchAllGo pages (currentPage + 1) fuel acc' (reqs + 1)
    else
      some (acc', reqs + 1)

/-- The function `fetchAllCandidates`, abstracted over the page each successful
request returns: starts at page 1 with an empty accumulator. -/
def fetchAllCandidates (pages : Nat → ApiResponse) (fuel : Nat) :
    Option (List CsvRow × Nat) :=
  fetchAllGo pages 1 fuel [] 0

/-! ## The CSV encoder (`convertToCSV`) -/

/-- The fixed header list of `convertToCSV`. -/
def headers : List String :=
  ["candidate_id", "first_name", "last_name", "email",
   "job_application_id", "job_application_created_at"]

/-- Null handling `field == null ? "" : field` followed by the quoting logic of
`escapeField`: `none` models a null/undefined field.  A field is quoted
when it contains a comma, a double quote or a newline; inside the
quotes every double quote of the field is doubled
(`str.replace(/"/g, '""')`). -/
def escapeField (field : Option String) : String :=
  let str := field.getD ""
  if str.data.contains ',' || str.data.contains '"' || str.data.contains '\n' then
    "\"" ++ String.mk (str.data.flatMap
      (fun c => if c = '"' then ['"', '"'] else [c])) ++ "\""
  else
    str

/-- Field access `row[h]` for each header `h`, in header order. -/
def rowFields (row : CsvRow) : List String :=
  [row.candidate_id, row.first_name, row.last_name, row.email,
   row.job_application_id, row.job_application_created_at]

/-- One data line of `convertToCSV`: each field escaped, joined with
commas. -/
def rowToLine (row : CsvRow) : String :=
  String.intercalate "," ((rowFields row).map (fun f => escapeField (some f)))

/-- The function `convertToCSV`: BOM, then the header line and one line per row,
joined by a single newline character. -/
def convertToCSV (rows : List CsvRow) : String :=
  let NEWLINE := String.mk [Char.ofNat 10]
  let BOM := String.mk [Char.ofNat 0xfeff]
  let csvLines := String.intercalate "," headers :: rows.map rowToLine
  BOM ++ String.intercalate NEWLINE csvLines

/-! ## An RFC 4180 field parser (for the round-trip claim) -/

/-- Modelled from the spec: an RFC 4180 reader for the body of a quoted
field — a doubled double quote yields one double quote, a single double
quote closes the field (and must end it), any other character is
literal.  Returns `none` when the body is not a well-formed quoted
field remainder. -/
def readQuotedBody : List Char → Option (List Char)
  | [] => none
  | c :: rest =>
    if c = '"' then
      match rest with
      | [] => some []
      | c2 :: rest2 =>
        if c2 = '"' then (readQuotedBody rest2).map (fun cs => '"' :: cs)
        else none
    else (readQuotedBody rest).map (fun cs => c :: cs)

/-- Modelled from the spec: parse a single CSV field in isolation.  A
field starting with a double quote is a quoted field whose body is read
by `readQuotedBody`; any other field stands for itself. -/
def unescapeField (s : String) : Option String :=
  match s.data with
  | '"' :: rest => (readQuotedBody rest).map String.mk
  | _ => some s

/-! ## Concrete example data (used by hypothesis witnesses) -/

/-- Side-loaded job application "a" of the spec's end-to-end example. -/
def exJobA : JobApplication :=
  { id := "a", type := "job-applications",
    attributes := { createdAt := some "2024-01-01" } }

/-- Side-loaded job application "b" of the spec's end-to-end example. -/
def exJobB : JobApplication :=
  { id := "b", type := "job-applications",
    attributes := { createdAt := some "2024-01-02" } }

/-- The two references of the example candidate. -/
def exRefA : Ref := { id := "a", type := "job-applications" }

/-- Second reference of the example candidate. -/
def exRefB : Ref := { id := "b", type := "job-applications" }

/-- A candidate with two job-application references. -/
def exCandTwo : Candidate :=
  { id := "c1", type := "candidates",
    attributes := { firstName := some "Jo", lastName := some "Doe",
                    email := some "jo@example.com" },
    relationships := some
      { jobApplications := some { data := RelData.arr [exRefA, exRefB] } } }

/-- A candidate with no `relationships` object and no attributes. -/
def exCandNone : Candidate :=
  { id := "c2", type := "candidates",
    attributes := { firstName := none, lastName := none, email := none },
    relationships := none }

/-- A candidate whose job-applications reference is a single object, not
an array. -/
def exCandSingle : Candidate :=
  { id := "c3", type := "candidates",
    attributes := { firstName := some "X", lastName := none, email := none },
    relationships := some
      { jobApplications := some { data := RelData.single exRefA } } }

/-- The index of the example page. -/
def exMap : JobAppsMap := buildJobAppsMap [exJobA, exJobB]

/-- An empty page body, for responses whose body is never read. -/
def exhaustedBody : ApiResponse :=
  { data := [], included := none, links := none, meta := none }

/-- Page 1 of the spec's end-to-end example: one candidate with two
references, both side-loaded, and a continuation cursor. -/
def exPageOne : ApiResponse :=
  { data := [exCandTwo], included := some [exJobA, exJobB],
    links := some { next := some "page2" }, meta := none }

/-- Page 2 of the spec's end-to-end example: one candidate with no
relationships and no cursor. -/
def exPageTwo : ApiResponse :=
  { data := [exCandNone], included := none,
    links := some { next := none }, meta := none }

/-- A response sequence: rate-limited twice, then a success. -/
def exTwo429 : Nat → HttpResponse := fun i =>
  if i < 2 then { status := 429, body := exhaustedBody }
  else { status := 200, body := exPageOne }

/-! ## Flattener lemmas -/

/-- Characterization of `parseCandidateToRows` by the shape of the
relationship reference it reads. -/
lemma parseCandidateToRows_eq (candidate : Candidate) (m : JobAppsMap) :
    parseCandidateToRows candidate m =
      match getRefs candidate with
      | some (RelData.arr refs) =>
        if refs.length > 0 then refs.map (refRow candidate m)
        else [placeholderRow candidate]
      | _ => [placeholderRow candidate] := by
  unfold parseCandidateToRows getRefs refRow placeholderRow
  rfl

/-- The flattener on a non-empty reference array is exactly one
`refRow` per reference, in order. -/
lemma parse_arr (candidate : Candidate) (m : JobAppsMap) (refs : List Ref)
    (h : getRefs candidate = some (RelData.arr refs)) (hne : refs ≠ []) :
    parseCandidateToRows candidate m = refs.map (refRow candidate m) := by
  rw [parseCandidateToRows_eq, h]
  simp [List.length_pos.mpr hne]

/-- The flattener emits the single placeholder row whenever the
reference is not a non-empty array. -/
lemma parse_placeholder (candidate : Candidate) (m : JobAppsMap)
    (h : ∀ refs, getRefs candidate = some (RelData.arr refs) → refs = []) :
    parseCandidateToRows candidate m = [placeholderRow candidate] := by
  rw [parseCandidateToRows_eq]
  cases hr : getRefs candidate with
  | none => rfl
  | some rd =>
    cases rd with
    | arr refs => simp [h refs hr]
    | single r => rfl

/-- C1.  For a primary record whose job-applications reference is a
non-empty array of k references, `parseCandidateToRows` returns exactly
k rows, one per referenced id in reference order, each carrying the
candidate's id, first name, last name and email plus that reference's
id (`refRow`); for an absent reference or an empty array it returns
exactly the one placeholder row whose related-entity id and timestamp
fields are empty. -/
theorem parseCandidateToRows_row_per_reference (candidate : Candidate)
    (m : JobAppsMap) :
    (∀ refs, getRefs candidate = some (RelData.arr refs) → refs ≠ [] →
      parseCandidateToRows candidate m = refs.map (refRow candidate m) ∧
      (parseCandidateToRows candidate m).length = refs.length)
    ∧ ((getRefs candidate = none ∨ getRefs candidate = some (RelData.arr [])) →
      parseCandidateToRows candidate m = [placeholderRow candidate] ∧
      (placeholderRow candidate).job_application_id = "" ∧
      (placeholderRow candidate).job_application_created_at = "") := by
  constructor
  · intro refs h hne
    have he := parse_arr candidate m refs h hne
    exact ⟨he, by rw [he, List.length_map]⟩
  · intro h
    refine ⟨parse_placeholder candidate m ?_, rfl, rfl⟩
    intro refs hr
    rcases h with h | h <;> rw [h] at hr
    · exact absurd hr (by simp)
    · injection hr with h2
      injection h2 with h3
      exact h3.symm

/-- Witness for C1 at the example inputs. -/
theorem parseCandidateToRows_row_per_reference_witness :
    parseCandidateToRows exCandTwo exMap =
      List.map (refRow exCandTwo exMap) [exRefA, exRefB]
    ∧ parseCandidateToRows exCandNone exMap = [placeholderRow exCandNone] :=
  ⟨((parseCandidateToRows_row_per_reference exCandTwo exMap).1 [exRefA, exRefB]
      rfl (by simp)).1,
   ((parseCandidateToRows_row_per_reference exCandNone exMap).2
      (Or.inl rfl)).1⟩

/-- C10.  When the job-applications reference is present as a single
(id, type) object rather than an array, the flattener discards it and
emits exactly the placeholder row — the same result as if the
relationship were absent. -/
theorem parseCandidateToRows_single_ref_discarded (candidate : Candidate)
    (m : JobAppsMap) (r : Ref)
    (h : getRefs candidate = some (RelData.single r)) :
    parseCandidateToRows candidate m = [placeholderRow candidate] ∧
    parseCandidateToRows candidate m =
      parseCandidateToRows { candidate with relationships := none } m ∧
    (placeholderRow candidate).job_application_id = "" ∧
    (placeholderRow candidate).job_application_created_at = "" := by
  have h1 : parseCandidateToRows candidate m = [placeholderRow candidate] := by
    refine parse_placeholder candidate m ?_
    intro refs hr
    rw [h] at hr
    injection hr with h2
    injection h2
  have h2 : parseCandidateToRows { candidate with relationships := none } m =
      [placeholderRow { candidate with relationships := none }] := by
    refine parse_placeholder _ m ?_
    intro refs hr
    simp [getRefs] at hr
  refine ⟨h1, ?_, rfl, rfl⟩
  rw [h1, h2]
  rfl

/-- Witness for C10 at the example input. -/
theorem parseCandidateToRows_single_ref_discarded_witness :
    parseCandidateToRows exCandSingle exMap = [placeholderRow exCandSingle] :=
  (parseCandidateToRows_single_ref_discarded exCandSingle exMap exRefA rfl).1

/-- C8.  The flattener is defensive: a missing first-name, last-name or
email attribute yields empty-string fields in every produced row, and a
reference whose id does not resolve in the page index still produces
its row, with an empty timestamp field. -/
theorem parseCandidateToRows_defensive (candidate : Candidate)
    (m : JobAppsMap) :
    (candidate.attributes.firstName = none →
      ∀ row ∈ parseCandidateToRows candidate m, row.first_name = "")
    ∧ (candidate.attributes.lastName = none →
      ∀ row ∈ parseCandidateToRows candidate m, row.last_name = "")
    ∧ (candidate.attributes.email = none →
      ∀ row ∈ parseCandidateToRows candidate m, row.email = "")
    ∧ (∀ refs, getRefs candidate = some (RelData.arr refs) → refs ≠ [] →
      ∀ ref ∈ refs, m ref.id = none →
        refRow candidate m ref ∈ parseCandidateToRows candidate m ∧
        (refRow candidate m ref).job_application_created_at = "") := by
  have hfields : ∀ row ∈ parseCandidateToRows candidate m,
      row.first_name = candidate.attributes.firstName.getD "" ∧
      row.last_name = candidate.attributes.lastName.getD "" ∧
      row.email = candidate.attributes.email.getD "" := by
    intro row hrow
    rw [parseCandidateToRows_eq] at hrow
    rcases hgr : getRefs candidate with _ | rd
    · rw [hgr] at hrow
      simp at hrow
      simp [hrow, placeholderRow]
    · cases rd with
      | arr refs =>
        rw [hgr] at hrow
        by_cases hlen : refs.length > 0
        · simp [hlen] at hrow
          obtain ⟨ref, _, hr⟩ := hrow
          subst hr
          simp [refRow]
        · simp [hlen] at hrow
          simp [hrow, placeholderRow]
      | single r =>
        rw [hgr] at hrow
        simp at hrow
        simp [hrow, placeholderRow]
  refine ⟨?_, ?_, ?_, ?_⟩
  · intro h row hrow
    rw [(hfields row hrow).1, h]
    rfl
  · intro h row hrow
    rw [(hfields row hrow).2.1, h]
    rfl
  · intro h row hrow
    rw [(hfields row hrow).2.2, h]
    rfl
  · intro refs h hne ref href hmiss
    constructor
    · rw [parse_arr candidate m refs h hne]
      exact List.mem_map_of_mem _ href
    · simp [refRow, hmiss]

/-- Witness for C8 at a candidate with no attributes and an index miss. -/
theorem parseCandidateToRows_defensive_witness :
    (∀ row ∈ parseCandidateToRows exCandNone exMap, row.first_name = "")
    ∧ (refRow exCandTwo (fun _ => none) exRefA).job_application_created_at
      = "" :=
  ⟨(parseCandidateToRows_defensive exCandNone exMap).1 rfl,
   ((parseCandidateToRows_defensive exCandTwo (fun _ => none)).2.2.2
      [exRefA, exRefB] rfl (by simp) exRefA (by simp) rfl).2⟩

/-! ## Retry-loop lemmas -/

/-- The backoff delays recorded before attempt `j` is issued: attempt
`k` (1 ≤ k ≤ j) was preceded by a `2^(k-1)` s wait, recorded in ms. -/
def backoffDelays (j : Nat) : List Nat :=
  (List.range j).map (fun k => 2 ^ k * 1000)

/-- A 429 status is never `ok`. -/
lemma status_ne_429_of_ok {s : Nat} (h : statusOk s = true) : s ≠ 429 := by
  intro hc
  rw [hc] at h
  simp [statusOk] at h

/-- After `j ≤ 3` leading 429 responses, `fetchCandidatesPage` is the
retry loop resumed at attempt `j`: `j` requests issued so far, and the
`j - 1` delays of attempts `1 … j-1` recorded (the delay of attempt `j`
itself is recorded when that iteration runs). -/
lemma fetchGo_after_429 (resps : Nat → HttpResponse) (j : Nat)
    (hj : j ≤ MAX_RETRIES) (h429 : ∀ i, i < j → (resps i).status = 429) :
    fetchCandidatesPage resps =
      fetchGo resps j (MAX_RETRIES + 1 - j) (backoffDelays (j - 1)) j := by
  rw [MAX_RETRIES] at hj ⊢
  interval_cases j
  · rfl
  · have h0 := h429 0 (by norm_num)
    simp [fetchCandidatesPage, MAX_RETRIES, fetchGo, h0, backoffDelays]
  · have h0 := h429 0 (by norm_num)
    have h1 := h429 1 (by norm_num)
    simp [fetchCandidatesPage, MAX_RETRIES, fetchGo, h0, h1, backoffDelays,
      List.range_succ]
  · have h0 := h429 0 (by norm_num)
    have h1 := h429 1 (by norm_num)
    have h2 := h429 2 (by norm_num)
    simp [fetchCandidatesPage, MAX_RETRIES, fetchGo, h0, h1, h2, backoffDelays,
      List.range_succ]

/-- One non-429 step of the retry loop: at attempt `j` the loop ends,
with `j + 1` total requests and the `j` delays of attempts `1 … j`. -/
lemma fetchGo_stop (resps : Nat → HttpResponse) (j : Nat)
    (hj : j ≤ MAX_RETRIES) (hne : (resps j).status ≠ 429) :
    fetchGo resps j (MAX_RETRIES + 1 - j) (backoffDelays (j - 1)) j =
      if statusOk (resps j).status then
        { outcome := Except.ok (resps j).body,
          requests := j + 1, delays := backoffDelays j }
      else
        { outcome := Except.error
            (if (resps j).status = 401 then FetchError.invalidCredential
             else if (resps j).status = 403 then FetchError.accessDenied
             else FetchError.upstreamError (resps j).status),
          requests := j + 1, delays := backoffDelays j } := by
  rw [MAX_RETRIES] at hj ⊢
  by_cases hok : statusOk (resps j).status <;>
  · interval_cases j <;>
      simp [fetchGo, hne, hok, backoffDelays, List.range_succ]

/-- C2.  Only a 429 triggers a retry; after the first attempt at most
`MAX_RETRIES = 3` more are made, waiting `2^(k-1)` s (recorded in ms:
1000, 2000, 4000) before retry attempt k; four consecutive 429s fail
with the rate-limit error after exactly 4 requests; and if attempt `j`
(preceded only by 429s) succeeds, its parsed body is returned unchanged
after exactly `j + 1` requests. -/
theorem fetchCandidatesPage_retry_policy (resps : Nat → HttpResponse) :
    ((∀ i, i ≤ MAX_RETRIES → (resps i).status = 429) →
      fetchCandidatesPage resps =
        { outcome := Except.error FetchError.rateLimitExceeded,
          requests := 4, delays := [1000, 2000, 4000] })
    ∧ (∀ j, j ≤ MAX_RETRIES → (∀ i, i < j → (resps i).status = 429) →
        statusOk (resps j).status = true →
        fetchCandidatesPage resps =
          { outcome := Except.ok (resps j).body,
            requests := j + 1, delays := backoffDelays j })
    ∧ (∀ j, j ≤ MAX_RETRIES → (∀ i, i < j → (resps i).status = 429) →
        (resps j).status ≠ 429 →
        (fetchCandidatesPage resps).requests = j + 1) := by
  refine ⟨?_, ?_, ?_⟩
  · intro h
    rw [fetchGo_after_429 resps 3 (by rw [MAX_RETRIES])
      (fun i hi => h i (by rw [MAX_RETRIES]; omega))]
    have h3 := h 3 (by rw [MAX_RETRIES])
    simp [MAX_RETRIES, fetchGo, h3, backoffDelays, List.range_succ]
  · intro j hj hpre hok
    rw [fetchGo_after_429 resps j hj hpre,
      fetchGo_stop resps j hj (status_ne_429_of_ok hok), hok]
    rfl
  · intro j hj hpre hne
    rw [fetchGo_after_429 resps j hj hpre, fetchGo_stop resps j hj hne]
    by_cases hok : statusOk (resps j).status <;> simp [hok]

/-- Witness for C2: a permanently rate-limited upstream exhausts the
budget, and an upstream that is rate-limited twice then succeeds returns
the third attempt's body after waits of 1000 and 2000 ms. -/
theorem fetchCandidatesPage_retry_policy_witness :
    (fetchCandidatesPage (fun _ => { status := 429, body := exhaustedBody }) =
      { outcome := Except.error FetchError.rateLimitExceeded,
        requests := 4, delays := [1000, 2000, 4000] })
    ∧ (fetchCandidatesPage exTwo429 =
      { outcome := Except.ok (exTwo429 2).body,
        requests := 3, delays := backoffDelays 2 }) :=
  ⟨(fetchCandidatesPage_retry_policy
      (fun _ => { status := 429, body := exhaustedBody })).1 (fun _ _ => rfl),
   (fetchCandidatesPage_retry_policy exTwo429).2.1 2
      (by rw [MAX_RETRIES]; omega)
      (fun i hi => by interval_cases i <;> rfl) rfl⟩

/-- C6.  A 401 response (at any attempt position `j`, the earlier
attempts all rate-limited) makes the call fail at once with the
invalid-credential error; a 403 with the access-denied error; and any
other non-ok, non-429 status with the upstream error carrying that
status — in every case after exactly `j + 1` requests, so none of these
statuses causes a retry or a further request. -/
theorem fetchCandidatesPage_fatal_statuses (resps : Nat → HttpResponse) :
    ∀ j, j ≤ MAX_RETRIES → (∀ i, i < j → (resps i).status = 429) →
    (((resps j).status = 401 →
        fetchCandidatesPage resps =
          { outcome := Except.error FetchError.invalidCredential,
            requests := j + 1, delays := backoffDelays j })
    ∧ ((resps j).status = 403 →
        fetchCandidatesPage resps =
          { outcome := Except.error FetchError.accessDenied,
            requests := j + 1, delays := backoffDelays j })
    ∧ (statusOk (resps j).status = false → (resps j).status ≠ 429 →
       (resps j).status ≠ 401 → (resps j).status ≠ 403 →
        fetchCandidatesPage resps =
          { outcome := Except.error (FetchError.upstreamError (resps j).status),
            requests := j + 1, delays := backoffDelays j })) := by
  intro j hj hpre
  refine ⟨?_, ?_, ?_⟩
  · intro h401
    have hne : (resps j).status ≠ 429 := by rw [h401]; omega
    rw [fetchGo_after_429 resps j hj hpre, fetchGo_stop resps j hj hne]
    simp [h401, statusOk]
  · intro h403
    have hne : (resps j).status ≠ 429 := by rw [h403]; omega
    rw [fetchGo_after_429 resps j hj hpre, fetchGo_stop resps j hj hne]
    simp [h403, statusOk]
  · intro hok hne h401 h403
    rw [fetchGo_after_429 resps j hj hpre, fetchGo_stop resps j hj hne]
    simp [hok, h401, h403]

/-- Witness for C6 at immediate 401, 403 and 500 responses. -/
theorem fetchCandidatesPage_fatal_statuses_witness :
    (fetchCandidatesPage (fun _ => { status := 401, body := exhaustedBody }) =
      { outcome := Except.error FetchError.invalidCredential,
        requests := 1, delays := backoffDelays 0 })
    ∧ (fetchCandidatesPage (fun _ => { status := 403, body := exhaustedBody }) =
      { outcome := Except.error FetchError.accessDenied,
        requests := 1, delays := backoffDelays 0 })
    ∧ (fetchCandidatesPage (fun _ => { status := 500, body := exhaustedBody }) =
      { outcome := Except.error (FetchError.upstreamError 500),
        requests := 1, delays := backoffDelays 0 }) :=
  ⟨(fetchCandidatesPage_fatal_statuses
      (fun _ => { status := 401, body := exhaustedBody }) 0
      (by rw [MAX_RETRIES]; omega) (fun i hi => absurd hi (by omega))).1 rfl,
   (fetchCandidatesPage_fatal_statuses
      (fun _ => { status := 403, body := exhaustedBody }) 0
      (by rw [MAX_RETRIES]; omega) (fun i hi => absurd hi (by omega))).2.1 rfl,
   (fetchCandidatesPage_fatal_statuses
      (fun _ => { status := 500, body := exhaustedBody }) 0
      (by rw [MAX_RETRIES]; omega) (fun i hi => absurd hi (by omega))).2.2
      rfl (by decide) (by decide) (by decide)⟩

/-! ## Pagination-driver lemmas -/

/-- Running the pagination loop over `n + 1` pages starting at page
`start`, where every page before the last carries a cursor and the last
does not: the loop issues exactly `n + 1` further requests and appends
exactly the concatenation of the pages' rows, in page order. -/
lemma fetchAllGo_run (pages : Nat → ApiResponse) :
    ∀ (n start fuel : Nat) (acc : List CsvRow) (reqs : Nat),
      n + 1 ≤ fuel →
      (∀ i, i < n → hasNext (pages (start + i)) = true) →
      hasNext (pages (start + n)) = false →
      fetchAllGo pages start fuel acc reqs =
        some (acc ++ (List.range (n + 1)).flatMap
                (fun i => processPage (pages (start + i))),
              reqs + (n + 1)) := by
  intro n
  induction n with
  | zero =>
    intro start fuel acc reqs hfuel _hpre hlast
    obtain ⟨f, rfl⟩ : ∃ f, fuel = f + 1 := ⟨fuel - 1, by omega⟩
    simp only [Nat.add_zero] at hlast
    simp [fetchAllGo, hlast, List.range_succ]
  | succ n ih =>
    intro start fuel acc reqs hfuel hpre hlast
    obtain ⟨f, rfl⟩ : ∃ f, fuel = f + 1 := ⟨fuel - 1, by omega⟩
    have h0 : hasNext (pages start) = true := by
      have := hpre 0 (by omega)
      simpa using this
    have step :
        fetchAllGo pages start (f + 1) acc reqs =
          fetchAllGo pages (start + 1) f (acc ++ processPage (pages start))
            (reqs + 1) := by
      simp [fetchAllGo, h0]
    rw [step, ih (start + 1) f (acc ++ processPage (pages start)) (reqs + 1)
      (by omega)
      (fun i hi => by
        have := hpre (i + 1) (by omega)
        rw [show start + 1 + i = start + (i + 1) by omega]
        exact this)
      (by
        rw [show start + 1 + n = start + (n + 1) by omega]
        exact hlast)]
    have hrows :
        (List.range (n + 1 + 1)).flatMap
            (fun i => processPage (pages (start + i))) =
          processPage (pages start) ++ (List.range (n + 1)).flatMap
            (fun i => processPage (pages (start + 1 + i))) := by
      rw [List.range_succ_eq_map (n + 1), List.flatMap_cons, List.flatMap_map]
      simp only [Nat.add_zero, Nat.succ_eq_add_one]
      congr 1
      have harg : (fun a => processPage (pages (start + (a + 1)))) =
          (fun i => processPage (pages (start + 1 + i))) := by
        funext a
        rw [show start + (a + 1) = start + 1 + a from by omega]
      rw [harg]
    rw [hrows]
    simp only [List.append_assoc]
    congr 2
    omega

/-- Folding the index-building step over a list touches exactly the
entries the job-applications filter keeps. -/
lemma foldl_filter_jobApps (l : List JobApplication) :
    ∀ m : JobAppsMap,
      l.foldl (fun m resource =>
        if resource.type = "job-applications" then mapSet m resource.id resource
        else m) m =
      (l.filter (fun resource => resource.type = "job-applications")).foldl
        (fun m resource =>
          if resource.type = "job-applications" then mapSet m resource.id resource
          else m) m := by
  induction l with
  | nil => intro m; rfl
  | cons r rest ih =>
    intro m
    by_cases h : r.type = "job-applications"
    · simp [List.filter_cons, h, ih]
    · simp [List.filter_cons, h, ih]

/-- The page index is built solely from the entries of the side-loaded
collection whose type is `"job-applications"`. -/
lemma buildJobAppsMap_filter (l : List JobApplication) :
    buildJobAppsMap l =
      buildJobAppsMap (l.filter (fun resource =>
        resource.type = "job-applications")) :=
  foldl_filter_jobApps l _

/-- Rows of `processPage`, with the page-scoped filtered index made
explicit. -/
lemma processPage_eq (resp : ApiResponse) :
    processPage resp =
      resp.data.flatMap (fun candidate =>
        parseCandidateToRows candidate
          (buildJobAppsMap ((resp.included.getD []).filter
            (fun resource => resource.type = "job-applications")))) := by
  rw [processPage, buildJobAppsMap_filter]

/-- The concrete two-page sequence of the spec's end-to-end example. -/
def exPages : Nat → ApiResponse := fun p =>
  if p = 1 then exPageOne else exPageTwo

/-- C3.  The driver continues to the next page (incrementing the 1-based
page counter) exactly when the current response carries a non-empty
`links.next` cursor; and over a sequence of `n + 1` pages whose last
page omits the cursor it issues exactly `n + 1` page requests, then
stops and returns the accumulated rows. -/
theorem fetchAllCandidates_termination (pages : Nat → ApiResponse) (n : Nat)
    (hpre : ∀ i, i < n → hasNext (pages (1 + i)) = true)
    (hlast : hasNext (pages (1 + n)) = false) :
    (∀ p f acc r, fetchAllGo pages p (f + 1) acc r =
      if hasNext (pages p) then
        fetchAllGo pages (p + 1) f (acc ++ processPage (pages p)) (r + 1)
      else some (acc ++ processPage (pages p), r + 1))
    ∧ ∀ fuel, n + 1 ≤ fuel →
      fetchAllCandidates pages fuel =
        some ((List.range (n + 1)).flatMap
          (fun i => processPage (pages (1 + i))), n + 1) := by
  constructor
  · intro p f acc r
    rfl
  · intro fuel hfuel
    have h := fetchAllGo_run pages n 1 fuel [] 0 hfuel hpre hlast
    rw [fetchAllCandidates, h]
    simp

/-- Witness for C3 on the concrete two-page sequence. -/
theorem fetchAllCandidates_termination_witness :
    fetchAllCandidates exPages 2 =
      some ((List.range 2).flatMap (fun i => processPage (exPages (1 + i))), 2) :=
  (fetchAllCandidates_termination exPages 1
      (fun i hi => by
        obtain rfl : i = 0 := Nat.lt_one_iff.mp hi
        rfl)
      rfl).2 2 (by omega)

/-- C7.  On a successfully fetched sequence of pages, the driver returns
exactly the concatenation, in page order, of the flattener's output for
each candidate of each page in payload order, where the index handed to
the flattener for a page is built solely from that page's side-loaded
collection filtered to `"job-applications"` entries. -/
theorem fetchAllCandidates_rows_concat (pages : Nat → ApiResponse)
    (n fuel : Nat)
    (hpre : ∀ i, i < n → hasNext (pages (1 + i)) = true)
    (hlast : hasNext (pages (1 + n)) = false)
    (hfuel : n + 1 ≤ fuel) :
    fetchAllCandidates pages fuel =
      some ((List.range (n + 1)).flatMap (fun i =>
        (pages (1 + i)).data.flatMap (fun candidate =>
          parseCandidateToRows candidate
            (buildJobAppsMap (((pages (1 + i)).included.getD []).filter
              (fun resource => resource.type = "job-applications"))))),
        n + 1) := by
  have h := fetchAllGo_run pages n 1 fuel [] 0 hfuel hpre hlast
  rw [fetchAllCandidates, h]
  simp only [List.nil_append, Nat.zero_add, processPage_eq]

/-- Witness for C7 on the concrete two-page sequence: the three expected
rows of the spec's end-to-end example. -/
theorem fetchAllCandidates_rows_concat_witness :
    fetchAllCandidates exPages 2 =
      some ((List.range 2).flatMap (fun i =>
        (exPages (1 + i)).data.flatMap (fun candidate =>
          parseCandidateToRows candidate
            (buildJobAppsMap (((exPages (1 + i)).included.getD []).filter
              (fun resource => resource.type = "job-applications"))))),
        2) :=
  fetchAllCandidates_rows_concat exPages 1 2
    (fun i hi => by
      obtain rfl : i = 0 := Nat.lt_one_iff.mp hi
      rfl)
    rfl (by omega)

/-! ## CSV encoder lemmas -/

/-- Rebuilding a string from its character list is the identity. -/
lemma string_mk_data (s : String) : String.mk s.data = s := by
  cases s
  rfl

/-- C4.  The escaping function quotes a field exactly when it contains a
comma, a double quote or a newline; inside the quotes every double
quote of the field is doubled; a field with none of those characters is
emitted verbatim; and a null/undefined field renders as the empty
string. -/
theorem escapeField_quoting (s : String) :
    escapeField none = ""
    ∧ ((s.data.contains ',' || s.data.contains '"' ||
          s.data.contains '\n') = true →
        escapeField (some s) =
          "\"" ++ String.mk (s.data.flatMap
            (fun c => if c = '"' then ['"', '"'] else [c])) ++ "\"")
    ∧ ((s.data.contains ',' || s.data.contains '"' ||
          s.data.contains '\n') = false →
        escapeField (some s) = s) := by
  refine ⟨rfl, ?_, ?_⟩
  · intro h
    simp only [escapeField, Option.getD_some]
    rw [if_pos h]
  · intro h
    simp only [escapeField, Option.getD_some]
    rw [if_neg (fun hc => by rw [h] at hc; simp at hc)]

/-- Witness for C4 on a field with a comma and a field without special
characters. -/
theorem escapeField_quoting_witness :
    escapeField (some "a,b") =
      "\"" ++ String.mk ("a,b".data.flatMap
        (fun c => if c = '"' then ['"', '"'] else [c])) ++ "\""
    ∧ escapeField (some "ab") = "ab" :=
  ⟨(escapeField_quoting "a,b").2.1 (by decide),
   (escapeField_quoting "ab").2.2 (by decide)⟩

/-- Reading back a quote-doubled body followed by the closing quote
recovers the original characters. -/
lemma readQuotedBody_doubled (cs : List Char) :
    readQuotedBody
        (cs.flatMap (fun c => if c = '"' then ['"', '"'] else [c]) ++ ['"']) =
      some cs := by
  induction cs with
  | nil => rfl
  | cons c rest ih =>
    by_cases h : c = '"'
    · subst h
      have hstep :
          (('"' :: rest).flatMap
              (fun c => if c = '"' then ['"', '"'] else [c]) ++ ['"']) =
            '"' :: '"' :: (rest.flatMap
              (fun c => if c = '"' then ['"', '"'] else [c]) ++ ['"']) := rfl
      rw [hstep]
      simp only [readQuotedBody]
      simp [ih]
    · have hstep :
          ((c :: rest).flatMap
              (fun c => if c = '"' then ['"', '"'] else [c]) ++ ['"']) =
            c :: (rest.flatMap
              (fun c => if c = '"' then ['"', '"'] else [c]) ++ ['"']) := by
        simp [List.flatMap_cons, h]
      rw [hstep, readQuotedBody.eq_def]
      simp [h, ih]

/-- C5.  For every field value containing a comma, a double quote or a
newline, the RFC 4180 field parser applied to the encoder's escaped
output recovers the original string exactly. -/
theorem escapeField_roundtrip (s : String)
    (h : (s.data.contains ',' || s.data.contains '"' ||
        s.data.contains '\n') = true) :
    unescapeField (escapeField (some s)) = some s := by
  have hesc : escapeField (some s) =
      String.mk ('"' :: (s.data.flatMap
        (fun c => if c = '"' then ['"', '"'] else [c]) ++ ['"'])) := by
    simp only [escapeField, Option.getD_some]
    rw [if_pos h]
    rfl
  rw [hesc, unescapeField]
  simp [readQuotedBody_doubled, string_mk_data]

/-- Witness for C5 on a field containing a comma, a quote and a
newline. -/
theorem escapeField_roundtrip_witness :
    unescapeField (escapeField (some "a,\"b\nc")) = some "a,\"b\nc" :=
  escapeField_roundtrip "a,\"b\nc" (by decide)

/-- C9.  `convertToCSV` is the byte-order-mark character followed by the
fixed header line and one line per row, all joined by single newline
characters (no carriage returns), so the line list has length
`1 + rows.length`. -/
theorem convertToCSV_layout (rows : List CsvRow) :
    convertToCSV rows =
      String.mk [Char.ofNat 0xfeff] ++
        String.intercalate (String.mk [Char.ofNat 10])
          (("candidate_id,first_name,last_name,email," ++
            "job_application_id,job_application_created_at")
            :: rows.map rowToLine)
    ∧ (("candidate_id,first_name,last_name,email," ++
          "job_application_id,job_application_created_at")
        :: rows.map rowToLine).length = 1 + rows.length := by
  constructor
  · rfl
  · simp [Nat.add_comm]

end TT
